import Mathlib

/-!
Shallow embedding of `src/models/base/classifier.py` (class `Classifier`),
the ranked multi-label classifier base class of the GeoLifeClef repository,
together with proofs settling the frozen claims about it.

Modelling conventions:
* numpy float probabilities are modelled as `ℚ` (the claims are about
  ordering, selection and exact small fractions, not float rounding);
* class labels are modelled as `ℤ`;
* a Python method that can raise is modelled as a function into
  `Except PyError _`; an exception propagating out of a call is an
  `.error` value;
* Python attributes that may be absent (`clf`, `X_`, `y_`, `classes_`,
  `clf.predict_proba`) are `Option` fields; `hasattr` is `Option.isSome`.
-/

/-- Python / sklearn exception kinds that the embedded code can surface.
`ValueError` covers sklearn's validation failures (`check_array`,
`check_X_y`) — the spec calls these `ValidationError` — as well as numpy
broadcast-shape failures; `FloatNaN` models `np.mean` of an empty array
yielding `nan`. -/
inductive PyError where
  | NotImplementedError
  | NotFittedError
  | ValueError
  | ZeroDivisionError
  | IndexError
  | AttributeError
  | FloatNaN
deriving DecidableEq, Repr

/-- Propositional equality of `Except` values is decidable componentwise. -/
def exceptDecEq {ε α : Type} [DecidableEq ε] [DecidableEq α] :
    (x y : Except ε α) → Decidable (x = y)
  | .ok a, .ok b =>
    if h : a = b then .isTrue (by rw [h]) else .isFalse (by simp [h])
  | .error a, .error b =>
    if h : a = b then .isTrue (by rw [h]) else .isFalse (by simp [h])
  | .ok _, .error _ => .isFalse (by simp)
  | .error _, .ok _ => .isFalse (by simp)

instance {ε α : Type} [DecidableEq ε] [DecidableEq α] : DecidableEq (Except ε α) :=
  exceptDecEq

/-- The wrapped Scikit-learn estimator capability used by `Classifier.predict`:
only its `predict_proba` method matters to the claims.  `predict_proba` maps
a feature matrix (list of rows) to an N×C probability matrix; it is an
`Option` because `Classifier.predict` probes for it with `hasattr`. -/
structure SkEstimator where
  predict_proba : Option (List (List ℚ) → List (List ℚ))

/-- State of a `Classifier` instance.  `clf` is the optional wrapped
estimator attribute; `ranking_size` is the required attribute set by
subclasses; `X_`, `y_`, `classes_` are the fitted-state attributes created
by `fit` (absent, i.e. `none`, on a freshly constructed instance). -/
structure Classifier where
  clf : Option SkEstimator
  ranking_size : Nat
  X_ : Option (List (List ℚ))
  y_ : Option (List ℤ)
  classes_ : Option (List ℤ)

/-- A freshly constructed instance on which `fit` has never been called:
no fitted-state attributes exist.  A subclass may or may not have set the
`clf` attribute, and sets `ranking_size`. -/
def unfitted (clf : Option SkEstimator) (ranking_size : Nat) : Classifier :=
  ⟨clf, ranking_size, none, none, none⟩

/-- sklearn's `check_array(X)` with default arguments: X must be a
rectangular 2D numeric array with at least one sample and one feature,
else `ValueError` is raised. -/
def check_array (X : List (List ℚ)) : Except PyError (List (List ℚ)) :=
  match X with
  | [] => .error .ValueError
  | r :: _ =>
    if r.length = 0 ∨ X.any (fun row => row.length ≠ r.length) then
      .error .ValueError
    else
      .ok X

/-- `np.argsort` applied to one row `p`: the indices `0..p.length-1`
sorted so that the corresponding probabilities are ascending.  numpy's
default sort leaves the relative order of tied entries unspecified; we fix
one ascending permutation (a merge sort comparing by value). -/
def argsortRow (p : List ℚ) : List Nat :=
  (List.range p.length).mergeSort (fun i j => decide (p.getD i 0 ≤ p.getD j 0))

/-- Python's negative-end slice `a[-K:]`: the last `K` elements (all of
them when `K ≥ len(a)`), except that `a[-0:]` is the whole list. -/
def pySliceLast (K : Nat) (l : List Nat) : List Nat :=
  if K = 0 then l else l.drop (l.length - K)

/-- One row of `np.flip(np.argsort(probas, axis=1)[:,-K:], axis=1)`:
ascending argsort, keep the last `K` indices, reverse to descending. -/
def topRow (K : Nat) (p : List ℚ) : List Nat :=
  (pySliceLast K (argsortRow p)).reverse

/-- `Classifier.predict(X)` (the default `return_proba=False` path; the
`return_proba=True` branch only additionally returns the probabilities of
the same predictions and is not touched by any claim).  Faithful to the
source's order of checks: `hasattr(self, 'clf')`, then
`hasattr(self.clf, 'predict_proba')`, then `check_is_fitted(self,
['X_', 'y_'])`, then `check_array(X)`, then the argsort/slice/flip
pipeline, then the fancy indexing `self.classes_[top_predictions]` (which
raises `IndexError` on an out-of-range index and `AttributeError` when
`classes_` was never set). -/
def Classifier.predict (c : Classifier) (X : List (List ℚ)) :
    Except PyError (List (List ℤ)) :=
  match c.clf with
  | none => .error .NotImplementedError
  | some e =>
    match e.predict_proba with
    | none => .error .NotImplementedError
    | some f =>
      if c.X_.isSome ∧ c.y_.isSome then
        match check_array X with
        | .error err => .error err
        | .ok X' =>
          let probas := f X'
          let top_predictions := probas.map (fun p => topRow c.ranking_size p)
          match c.classes_ with
          | none => .error .AttributeError
          | some cs =>
            if top_predictions.any (fun idxs => idxs.any (fun i => cs.length ≤ i)) then
              .error .IndexError
            else
              .ok (top_predictions.map (fun idxs => idxs.map (fun i => cs.getD i 0)))
      else .error .NotFittedError

/-- The accumulation loop of `mrr_score`:
`for idx, y in enumerate(y_pred): try: rank = np.where(y == y_true[idx])[0][0]; score += 1./(rank+1) except IndexError: pass`.
Both the out-of-range access `y_true[idx]` and the not-found access
`[0][0]` raise `IndexError`, which the `except` swallows, so such rows
contribute 0.  (Python accumulates left to right; this recursion sums
right to left, which is equal in exact arithmetic.) -/
def mrrLoop : List ℤ → List (List ℤ) → ℚ
  | _, [] => 0
  | [], _ :: rest => mrrLoop [] rest
  | t :: ts, row :: rest =>
    (match row.findIdx? (fun a => a == t) with
     | some r => (1 : ℚ) / (r + 1)
     | none => 0) + mrrLoop ts rest

/-- `Classifier.mrr_score(self, y_true, y_pred)`.  The source never reads
`self`; the loop accumulates `score` and the method returns
`1./len(y_pred) * score`, a `ZeroDivisionError` when `y_pred` is empty. -/
def Classifier.mrr_score (_c : Classifier) (y_true : List ℤ)
    (y_pred : List (List ℤ)) : Except PyError ℚ :=
  if y_pred.length = 0 then .error .ZeroDivisionError
  else .ok (1 / (y_pred.length : ℚ) * mrrLoop y_true y_pred)

/-- The accumulation loop of `top30_score`: like `mrrLoop` but the search
row is truncated to `y[:min(30, len(y_pred))]` — `len(y_pred)` being the
number of SAMPLES, computed on the untouched argument, hence the constant
`window` parameter — and a found label contributes 1 regardless of rank. -/
def top30Loop (window : Nat) : List ℤ → List (List ℤ) → ℚ
  | _, [] => 0
  | [], _ :: rest => top30Loop window [] rest
  | t :: ts, row :: rest =>
    (if (row.take window).contains t then (1 : ℚ) else 0) + top30Loop window ts rest

/-- `Classifier.top30_score(self, y_true, y_pred)`: the windowed hit-count
loop, then `1./len(y_pred) * score` (a `ZeroDivisionError` when `y_pred`
is empty). -/
def Classifier.top30_score (_c : Classifier) (y_true : List ℤ)
    (y_pred : List (List ℤ)) : Except PyError ℚ :=
  if y_pred.length = 0 then .error .ZeroDivisionError
  else .ok (1 / (y_pred.length : ℚ) * top30Loop (min 30 y_pred.length) y_true y_pred)

/-- The first column `y_pred[:,0]` of a 2D array: `none` models the
`IndexError` raised when some row is empty (width-0 array). -/
def firstColumn : List (List ℤ) → Option (List ℤ)
  | [] => some []
  | [] :: _ => none
  | (a :: _) :: rest => (firstColumn rest).map (fun col => a :: col)

/-- Count of positions where two equal-length label vectors agree. -/
def countEq : List ℤ → List ℤ → Nat
  | a :: as_, b :: bs => (if a = b then 1 else 0) + countEq as_ bs
  | _, _ => 0

/-- `Classifier.accuracy_score(self, y_true, y_pred)`:
`(y_pred[:,0] == y_true).mean()`.  A width-0 array makes `y_pred[:,0]`
raise `IndexError`; unequal lengths make the elementwise `==` a broadcast
failure (`ValueError` in current numpy); `np.mean` of an empty comparison
is `nan`, modelled as `FloatNaN`. -/
def Classifier.accuracy_score (_c : Classifier) (y_true : List ℤ)
    (y_pred : List (List ℤ)) : Except PyError ℚ :=
  match firstColumn y_pred with
  | none => .error .IndexError
  | some col =>
    if col.length = y_true.length then
      if y_pred.length = 0 then .error .FloatNaN
      else .ok ((countEq col y_true : ℚ) / (y_pred.length : ℚ))
    else .error .ValueError

/-- `Classifier.score(self, X, y) = self.top30_score(y, self.predict(X))`;
an exception raised by `predict` propagates. -/
def Classifier.score (c : Classifier) (X : List (List ℚ)) (y : List ℤ) :
    Except PyError ℚ :=
  match c.predict X with
  | .error e => .error e
  | .ok y_predicted => c.top30_score y y_predicted

/-- Result of `mean_rank_score`: the Python code returns the string
`'no'` (a non-numeric sentinel) when no true label was found in its
prediction row, and a float otherwise. -/
inductive MeanRankResult where
  | no
  | val (q : ℚ)
deriving DecidableEq, Repr

/-- The accumulation loop of `mean_rank_score`: accumulates
`(score, n_predicted)`; a found label at 0-based `rank` adds `rank+1` to
`score` and 1 to `n_predicted`; rows whose label is absent — or whose
index is beyond `y_true`, the `IndexError` being swallowed — add nothing. -/
def meanRankLoop : List ℤ → List (List ℤ) → ℚ × Nat
  | _, [] => (0, 0)
  | [], _ :: rest => meanRankLoop [] rest
  | t :: ts, row :: rest =>
    let acc := meanRankLoop ts rest
    match row.findIdx? (fun a => a == t) with
    | some r => (acc.1 + (r + 1), acc.2 + 1)
    | none => acc

/-- `Classifier.mean_rank_score(self, y_true, y_pred)`: returns the
sentinel when `n_predicted == 0` and `1./n_predicted * score` otherwise. -/
def Classifier.mean_rank_score (_c : Classifier) (y_true : List ℤ)
    (y_pred : List (List ℤ)) : MeanRankResult :=
  let acc := meanRankLoop y_true y_pred
  if acc.2 = 0 then .no
  else .val (1 / (acc.2 : ℚ) * acc.1)

/-!  Spec-side formulations used to state the claims, written from the
spec's per-sample descriptions (zip the samples, map a contribution,
average), to be compared with the loop-based code above. -/

/-- Per-sample reciprocal-rank contribution described by the spec for
`mrr_score`: `1/(r+1)` for the 0-based first-occurrence position `r` of
the true label in the entire row, 0 when absent. -/
def mrrContrib (pair : List ℤ × ℤ) : ℚ :=
  match pair.1.findIdx? (fun a => a == pair.2) with
  | some r => (1 : ℚ) / (r + 1)
  | none => 0

/-- List of 0-based ranks of the true labels that ARE found in their
prediction rows (spec-side formulation for `mean_rank_score`). -/
def foundRanks (y_true : List ℤ) (y_pred : List (List ℤ)) : List Nat :=
  (y_pred.zip y_true).filterMap (fun pair => pair.1.findIdx? (fun a => a == pair.2))

/-!  Concrete instances used to exercise the theorems on explicit inputs. -/

/-- A concrete `predict_proba`: every sample receives the probability row
[1/4, 1/2, 1/4] over three classes. -/
def exampleProba : List (List ℚ) → List (List ℚ) :=
  fun X => X.map (fun _ => [1 / 4, 1 / 2, 1 / 4])

/-- A concrete wrapped estimator exposing `exampleProba`. -/
def exampleEstimator : SkEstimator := ⟨some exampleProba⟩

/-- A concrete fitted classifier: wrapped estimator `exampleEstimator`,
`ranking_size` 2, fitted-state attributes present, classes [10, 20, 30]. -/
def exampleFitted : Classifier :=
  ⟨some exampleEstimator, 2, some [[1]], some [7], some [10, 20, 30]⟩

/-!  Helper lemmas about the metric loops. -/

lemma mrrContrib_nonneg (pair : List ℤ × ℤ) : 0 ≤ mrrContrib pair := by
  unfold mrrContrib
  cases pair.1.findIdx? (fun a => a == pair.2) with
  | none => simp
  | some r => positivity

lemma mrrContrib_le_one (pair : List ℤ × ℤ) : mrrContrib pair ≤ 1 := by
  unfold mrrContrib
  cases pair.1.findIdx? (fun a => a == pair.2) with
  | none => simp
  | some r =>
    simp only
    rw [div_le_one (by positivity)]
    have : (0 : ℚ) ≤ (r : ℚ) := by positivity
    linarith

lemma mrrLoop_eq_sum :
    ∀ (y_pred : List (List ℤ)) (y_true : List ℤ),
      mrrLoop y_true y_pred = ((y_pred.zip y_true).map mrrContrib).sum := by
  intro yp
  induction yp with
  | nil => intro yt; cases yt <;> simp [mrrLoop]
  | cons row rest ih =>
    intro yt
    cases yt with
    | nil => simpa [mrrLoop] using ih []
    | cons t ts => simp [mrrLoop, mrrContrib, ih ts]

lemma mrrLoop_bounds :
    ∀ (y_pred : List (List ℤ)) (y_true : List ℤ),
      0 ≤ mrrLoop y_true y_pred ∧ mrrLoop y_true y_pred ≤ (y_pred.length : ℚ) := by
  intro yp
  induction yp with
  | nil => intro yt; cases yt <;> simp [mrrLoop]
  | cons row rest ih =>
    intro yt
    cases yt with
    | nil =>
      have h := ih []
      have hlen : ((rest.length : ℚ)) ≤ ((row :: rest).length : ℚ) := by
        push_cast [List.length_cons]; linarith
      exact ⟨by simpa [mrrLoop] using h.1, by simp only [mrrLoop]; linarith [h.2]⟩
    | cons t ts =>
      have h := ih ts
      have hc : 0 ≤ mrrContrib (row, t) ∧ mrrContrib (row, t) ≤ 1 :=
        ⟨mrrContrib_nonneg _, mrrContrib_le_one _⟩
      have hstep : mrrLoop (t :: ts) (row :: rest)
          = mrrContrib (row, t) + mrrLoop ts rest := by
        simp [mrrLoop, mrrContrib]
      rw [hstep]
      push_cast [List.length_cons]
      constructor <;> linarith [h.1, h.2, hc.1, hc.2]

lemma mrrLoop_take :
    ∀ (y_pred : List (List ℤ)) (y_true : List ℤ),
      mrrLoop y_true y_pred = mrrLoop (y_true.take y_pred.length) y_pred := by
  intro yp
  induction yp with
  | nil => intro yt; cases yt <;> simp [mrrLoop]
  | cons row rest ih =>
    intro yt
    cases yt with
    | nil => simp
    | cons t ts => simp [mrrLoop, List.take_succ_cons, ih ts]

lemma top30Loop_bounds :
    ∀ (w : Nat) (y_pred : List (List ℤ)) (y_true : List ℤ),
      0 ≤ top30Loop w y_true y_pred ∧ top30Loop w y_true y_pred ≤ (y_pred.length : ℚ) := by
  intro w yp
  induction yp with
  | nil => intro yt; cases yt <;> simp [top30Loop]
  | cons row rest ih =>
    intro yt
    cases yt with
    | nil =>
      have h := ih []
      exact ⟨by simpa [top30Loop] using h.1,
        by simp only [top30Loop]; push_cast [List.length_cons]; linarith [h.2]⟩
    | cons t ts =>
      have h := ih ts
      have hc : (0 : ℚ) ≤ (if (row.take w).contains t then (1 : ℚ) else 0)
          ∧ (if (row.take w).contains t then (1 : ℚ) else 0) ≤ 1 := by
        constructor <;> split <;> norm_num
      have hstep : top30Loop w (t :: ts) (row :: rest)
          = (if (row.take w).contains t then (1 : ℚ) else 0) + top30Loop w ts rest := by
        simp [top30Loop]
      rw [hstep]
      push_cast [List.length_cons]
      constructor <;> linarith [h.1, h.2, hc.1, hc.2]

lemma top30Loop_take :
    ∀ (w : Nat) (y_pred : List (List ℤ)) (y_true : List ℤ),
      top30Loop w y_true y_pred = top30Loop w (y_true.take y_pred.length) y_pred := by
  intro w yp
  induction yp with
  | nil => intro yt; cases yt <;> simp [top30Loop]
  | cons row rest ih =>
    intro yt
    cases yt with
    | nil => simp
    | cons t ts => simp [top30Loop, List.take_succ_cons, ih ts]

lemma length_ne_zero_of_ne_nil {α : Type} {l : List α} (h : l ≠ []) : l.length ≠ 0 := by
  simpa [List.length_eq_zero] using h

lemma div_mean_bounds {L N : ℚ} (hN : 0 < N) (h0 : 0 ≤ L) (hL : L ≤ N) :
    0 ≤ 1 / N * L ∧ 1 / N * L ≤ 1 := by
  constructor
  · positivity
  · rw [one_div, inv_mul_le_iff₀ hN]
    linarith

/-- C3: for equal-length inputs with at least one sample, `mrr_score`
equals the arithmetic mean over the N samples of the per-sample
contribution 1/(r+1), where r is the 0-based first-occurrence position of
the true label in the entire prediction row (0 when absent); the value
lies in [0,1]; and on y_true = [5], y_pred = [[3,5,1]] it is 1/2. -/
theorem mrr_score_is_mean_reciprocal_rank (c : Classifier) (y_true : List ℤ)
    (y_pred : List (List ℤ)) (hlen : y_true.length = y_pred.length)
    (hne : y_pred ≠ []) :
    c.mrr_score y_true y_pred
      = .ok (1 / (y_pred.length : ℚ) * ((y_pred.zip y_true).map mrrContrib).sum) ∧
    (∀ q : ℚ, c.mrr_score y_true y_pred = .ok q → 0 ≤ q ∧ q ≤ 1) ∧
    c.mrr_score [5] [[3, 5, 1]] = .ok (1 / 2) := by
  have hlen0 : y_pred.length ≠ 0 := length_ne_zero_of_ne_nil hne
  have hval : c.mrr_score y_true y_pred
      = .ok (1 / (y_pred.length : ℚ) * mrrLoop y_true y_pred) := by
    simp [Classifier.mrr_score, hlen0]
  refine ⟨by rw [hval, mrrLoop_eq_sum], ?_,
    by norm_num [Classifier.mrr_score, mrrLoop, List.findIdx?]⟩
  intro q hq
  rw [hval] at hq
  have hq' : q = 1 / (y_pred.length : ℚ) * mrrLoop y_true y_pred := by
    simpa using hq.symm
  have hb := mrrLoop_bounds y_pred y_true
  have hNpos : (0 : ℚ) < (y_pred.length : ℚ) := by
    exact_mod_cast Nat.pos_of_ne_zero hlen0
  rw [hq']
  exact div_mean_bounds hNpos hb.1 hb.2

/-- Witness for C3 at y_true = [5], y_pred = [[3,5,1]]. -/
theorem mrr_score_is_mean_reciprocal_rank_witness :
    Classifier.mrr_score (unfitted none 30) [5] [[3, 5, 1]]
      = .ok (1 / (1 : ℚ) * (([[3, 5, 1]].zip [(5 : ℤ)]).map mrrContrib).sum) :=
  (mrr_score_is_mean_reciprocal_rank (unfitted none 30) [5] [[3, 5, 1]]
    (by decide) (by decide)).1

/-- C2 (code evaluation at the failing input): on y_true = [5],
y_pred = [[3,5,1]] the code's `top30_score` searches only the first
`min(30, len(y_pred)) = 1` entries of the row — `len(y_pred)` being the
SAMPLE count, not the row width — so the true label 5, sitting at
position 1, is missed and the score is 0; under the claimed window
`min(30, K) = 3` (K the row width) the label would be found. -/
theorem top30_score_window_uses_sample_count (c : Classifier) :
    c.top30_score [5] [[3, 5, 1]] = .ok 0 ∧
    (5 : ℤ) ∈ ([3, 5, 1] : List ℤ).take (min 30 3) := by
  refine ⟨?_, by decide⟩
  norm_num [Classifier.top30_score, top30Loop]

/-- C7 (amended): none of the four metric functions reads the instance it
is called on — in particular none consults the fitted state: the result on
any instance equals the result on any other (for example an unfitted one),
and an unfitted instance receives a value, not a not-fitted error. -/
theorem scoring_ignores_fitted_state (c₁ c₂ : Classifier) (y_true : List ℤ)
    (y_pred : List (List ℤ)) :
    c₁.mrr_score y_true y_pred = c₂.mrr_score y_true y_pred ∧
    c₁.top30_score y_true y_pred = c₂.top30_score y_true y_pred ∧
    c₁.accuracy_score y_true y_pred = c₂.accuracy_score y_true y_pred ∧
    c₁.mean_rank_score y_true y_pred = c₂.mean_rank_score y_true y_pred :=
  ⟨rfl, rfl, rfl, rfl⟩

/-- C7 counterexample: `mrr_score` called on a never-fitted instance
returns a value (1/2), not a "not fitted" error. -/
theorem scoring_unfitted_returns_value :
    Classifier.mrr_score (unfitted none 30) [5] [[3, 5, 1]] = .ok (1 / 2) := by
  norm_num [Classifier.mrr_score, mrrLoop, List.findIdx?]

/-- C8 (amended): `mrr_score` and `top30_score` never raise a validation
error on mismatched lengths: true labels beyond the prediction count are
silently ignored (the result only depends on the first `len(y_pred)` true
labels), and prediction rows beyond the true-label count silently
contribute 0 (their `IndexError` is swallowed by the `except` clause). -/
theorem scoring_no_length_validation (c : Classifier) (y_true : List ℤ)
    (y_pred : List (List ℤ)) :
    c.mrr_score y_true y_pred ≠ .error .ValueError ∧
    c.top30_score y_true y_pred ≠ .error .ValueError ∧
    c.mrr_score y_true y_pred = c.mrr_score (y_true.take y_pred.length) y_pred ∧
    c.top30_score y_true y_pred = c.top30_score (y_true.take y_pred.length) y_pred := by
  refine ⟨?_, ?_, ?_, ?_⟩
  · unfold Classifier.mrr_score
    split <;> simp
  · unfold Classifier.top30_score
    split <;> simp
  · unfold Classifier.mrr_score
    rw [← mrrLoop_take]
  · unfold Classifier.top30_score
    rw [← top30Loop_take]

/-- C8 counterexample: with y_true of length 1 and y_pred of length 2 —
mismatched lengths — both scores silently return 1/2 instead of failing
with a validation error. -/
theorem scoring_length_mismatch_silently_scores :
    Classifier.mrr_score (unfitted none 30) [5] [[5], [3]] = .ok (1 / 2) ∧
    Classifier.top30_score (unfitted none 30) [5] [[5], [3]] = .ok (1 / 2) := by
  constructor
  · norm_num [Classifier.mrr_score, mrrLoop, List.findIdx?]
  · norm_num [Classifier.top30_score, top30Loop]

/-- C10: on an empty prediction list both `mrr_score` and `top30_score`
hit the division `1./len(y_pred)` with a zero denominator and raise
`ZeroDivisionError`; on any non-empty prediction list both return a value
in [0, 1]. -/
theorem scoring_empty_division (c : Classifier) (y_true : List ℤ)
    (y_pred : List (List ℤ)) :
    (y_pred = [] →
      c.mrr_score y_true y_pred = .error .ZeroDivisionError ∧
      c.top30_score y_true y_pred = .error .ZeroDivisionError) ∧
    (y_pred ≠ [] →
      ∃ m t : ℚ, c.mrr_score y_true y_pred = .ok m ∧
        c.top30_score y_true y_pred = .ok t ∧
        0 ≤ m ∧ m ≤ 1 ∧ 0 ≤ t ∧ t ≤ 1) := by
  constructor
  · intro h
    subst h
    exact ⟨rfl, rfl⟩
  · intro hne
    have hlen0 : y_pred.length ≠ 0 := length_ne_zero_of_ne_nil hne
    have hNpos : (0 : ℚ) < (y_pred.length : ℚ) := by
      exact_mod_cast Nat.pos_of_ne_zero hlen0
    have hm := mrrLoop_bounds y_pred y_true
    have ht := top30Loop_bounds (min 30 y_pred.length) y_pred y_true
    have hmb := div_mean_bounds hNpos hm.1 hm.2
    have htb := div_mean_bounds hNpos ht.1 ht.2
    refine ⟨_, _, ?_, ?_, hmb.1, hmb.2, htb.1, htb.2⟩
    · simp [Classifier.mrr_score, hlen0]
    · simp [Classifier.top30_score, hlen0]

/-- Witness for C10: the empty case errors, and a concrete non-empty case
yields in-range values. -/
theorem scoring_empty_division_witness :
    Classifier.mrr_score (unfitted none 30) [5] [] = .error .ZeroDivisionError ∧
    (∃ m t : ℚ, Classifier.mrr_score (unfitted none 30) [5] [[5]] = .ok m ∧
      Classifier.top30_score (unfitted none 30) [5] [[5]] = .ok t ∧
      0 ≤ m ∧ m ≤ 1 ∧ 0 ≤ t ∧ t ≤ 1) :=
  ⟨((scoring_empty_division (unfitted none 30) [5] []).1 rfl).1,
   (scoring_empty_division (unfitted none 30) [5] [[5]]).2 (by decide)⟩

/-!  Lemmas relating `meanRankLoop` to its spec-side description. -/

lemma meanRankLoop_eq :
    ∀ (y_pred : List (List ℤ)) (y_true : List ℤ),
      (meanRankLoop y_true y_pred).1
          = ((foundRanks y_true y_pred).map (fun r => (r : ℚ) + 1)).sum ∧
      (meanRankLoop y_true y_pred).2 = (foundRanks y_true y_pred).length := by
  intro yp
  induction yp with
  | nil => intro yt; cases yt <;> simp [meanRankLoop, foundRanks]
  | cons row rest ih =>
    intro yt
    cases yt with
    | nil => simpa [meanRankLoop, foundRanks] using ih []
    | cons t ts =>
      have h := ih ts
      cases hf : row.findIdx? (fun a => a == t) with
      | none =>
        constructor
        · simpa [meanRankLoop, foundRanks, hf] using h.1
        · simpa [meanRankLoop, foundRanks, hf] using h.2
      | some r =>
        constructor
        · simp [meanRankLoop, foundRanks, hf, h.1, add_comm]
        · simp [meanRankLoop, foundRanks, hf, h.2]

/-- C4: for equal-length inputs, `mean_rank_score` averages (rank+1) over
exactly the samples whose true label occurs in their prediction row
(`foundRanks` lists those ranks), excluding absent-label samples from both
numerator and denominator; when no true label is found at all it returns
the non-numeric sentinel (the Python string 'no') instead of a number; and
on y_true = [5,9], y_pred = [[5,3],[3,1]] it returns 1. -/
theorem mean_rank_score_averages_found_samples (c : Classifier)
    (y_true : List ℤ) (y_pred : List (List ℤ))
    (hlen : y_true.length = y_pred.length) :
    (c.mean_rank_score y_true y_pred = .no ↔ foundRanks y_true y_pred = []) ∧
    (foundRanks y_true y_pred ≠ [] →
      c.mean_rank_score y_true y_pred
        = .val (1 / ((foundRanks y_true y_pred).length : ℚ)
            * ((foundRanks y_true y_pred).map (fun r => (r : ℚ) + 1)).sum)) ∧
    c.mean_rank_score [5, 9] [[5, 3], [3, 1]] = .val 1 := by
  have h := meanRankLoop_eq y_pred y_true
  refine ⟨?_, ?_, ?_⟩
  · simp only [Classifier.mean_rank_score, h.2]
    by_cases hc : foundRanks y_true y_pred = []
    · simp [hc]
    · have hn : (foundRanks y_true y_pred).length ≠ 0 := by
        simpa [List.length_eq_zero] using hc
      simp [hc, hn]
  · intro hne
    have hn : (foundRanks y_true y_pred).length ≠ 0 := by
      simpa [List.length_eq_zero] using hne
    simp only [Classifier.mean_rank_score, h.1, h.2]
    simp [hn]
  · norm_num [Classifier.mean_rank_score, meanRankLoop, List.findIdx?]

/-- Witness for C4 at y_true = [5,9], y_pred = [[5,3],[3,1]]. -/
theorem mean_rank_score_averages_found_samples_witness :
    Classifier.mean_rank_score (unfitted none 30) [5, 9] [[5, 3], [3, 1]] = .val 1 :=
  (mean_rank_score_averages_found_samples (unfitted none 30) [5, 9]
    [[5, 3], [3, 1]] (by decide)).2.2

/-- C5: whenever `predict` succeeds, `score(X, y)` equals
`top30_score(y, predict(X))`, with the arguments in that order. -/
theorem score_is_top30_of_predict (c : Classifier) (X : List (List ℚ))
    (y : List ℤ) (y_predicted : List (List ℤ))
    (h : c.predict X = .ok y_predicted) :
    c.score X y = c.top30_score y y_predicted := by
  unfold Classifier.score
  rw [h]

/-- Witness for C5 on the concrete fitted classifier. -/
theorem score_is_top30_of_predict_witness :
    exampleFitted.score [[1]] [20] = exampleFitted.top30_score [20] [[20, 30]] :=
  score_is_top30_of_predict exampleFitted [[1]] [20] [[20, 30]]
    (by norm_num [Classifier.predict, exampleFitted, exampleEstimator, exampleProba,
      check_array, topRow, argsortRow, pySliceLast, List.mergeSort,
      List.range_succ, List.getD])

/-- C6 counterexample: on an unfitted instance that has no wrapped
estimator attribute, `predict` raises `NotImplementedError`, not
`NotFittedError` — the `hasattr(self, 'clf')` check precedes
`check_is_fitted`. -/
theorem predict_unfitted_without_clf_not_notfitted :
    Classifier.predict (unfitted none 30) [[1]] = .error .NotImplementedError ∧
    (Except.error PyError.NotImplementedError : Except PyError (List (List ℤ)))
      ≠ .error .NotFittedError := by
  exact ⟨rfl, by decide⟩

/-- C6 (amended): on an unfitted instance whose wrapped estimator exposes
`predict_proba`, `predict` raises `NotFittedError` for any input, before
any fitted-state field is touched (the error does not depend on `X` or on
any fitted field, which are all absent). -/
theorem predict_before_fit_raises_notfitted (e : SkEstimator)
    (f : List (List ℚ) → List (List ℚ)) (hpp : e.predict_proba = some f)
    (K : Nat) (X : List (List ℚ)) :
    Classifier.predict (unfitted (some e) K) X = .error .NotFittedError := by
  simp [Classifier.predict, unfitted, hpp]

/-- Witness for C6 (amended) on the concrete estimator. -/
theorem predict_before_fit_raises_notfitted_witness :
    Classifier.predict (unfitted (some exampleEstimator) 30) [[1]]
      = .error .NotFittedError :=
  predict_before_fit_raises_notfitted exampleEstimator exampleProba rfl 30 [[1]]

/-!  Lemmas comparing the per-sample contributions of the three metrics. -/

lemma firstColumn_of_rows_nonempty :
    ∀ (y_pred : List (List ℤ)), (∀ row ∈ y_pred, row ≠ []) →
      ∃ col, firstColumn y_pred = some col ∧ col.length = y_pred.length := by
  intro yp
  induction yp with
  | nil => intro _; exact ⟨[], rfl, rfl⟩
  | cons row rest ih =>
    intro hrows
    obtain ⟨col, hcol, hlen⟩ := ih (fun r hr => hrows r (List.mem_cons_of_mem _ hr))
    have hrow : row ≠ [] := hrows row (List.mem_cons_self _ _)
    cases row with
    | nil => exact absurd rfl hrow
    | cons a tl =>
      exact ⟨a :: col, by simp [firstColumn, hcol], by simp [hlen]⟩

lemma countEq_le_top30Loop (w : Nat) (hw : 1 ≤ w) :
    ∀ (y_pred : List (List ℤ)) (y_true col : List ℤ),
      firstColumn y_pred = some col →
      (countEq col y_true : ℚ) ≤ top30Loop w y_true y_pred := by
  intro yp
  induction yp with
  | nil =>
    intro yt col hcol
    simp only [firstColumn, Option.some.injEq] at hcol
    subst hcol
    cases yt <;> simp [countEq, top30Loop]
  | cons row rest ih =>
    intro yt col hcol
    cases row with
    | nil => simp [firstColumn] at hcol
    | cons a tl =>
      simp only [firstColumn] at hcol
      cases hrest : firstColumn rest with
      | none => rw [hrest] at hcol; simp at hcol
      | some col' =>
        rw [hrest] at hcol
        simp only [Option.map_some', Option.some.injEq] at hcol
        subst hcol
        cases yt with
        | nil =>
          have h := top30Loop_bounds w rest []
          simpa [countEq, top30Loop] using h.1
        | cons t ts =>
          have h := ih ts col' hrest
          have hstep : top30Loop w (t :: ts) ((a :: tl) :: rest)
              = (if ((a :: tl).take w).contains t then (1 : ℚ) else 0)
                + top30Loop w ts rest := by
            simp [top30Loop]
          have hcontrib : ((if a = t then (1 : ℚ) else 0))
              ≤ (if ((a :: tl).take w).contains t then (1 : ℚ) else 0) := by
            by_cases hat : a = t
            · subst hat
              obtain ⟨w', rfl⟩ := Nat.exists_eq_add_of_le hw
              have hmem : a ∈ List.take (1 + w') (a :: tl) := by
                rw [Nat.add_comm, List.take_succ_cons]
                exact List.mem_cons_self _ _
              simp [hmem]
            · simp only [hat, if_false]
              split <;> norm_num
          rw [hstep]
          push_cast [countEq]
          linarith [hcontrib, h]

lemma countEq_le_mrrLoop :
    ∀ (y_pred : List (List ℤ)) (y_true col : List ℤ),
      firstColumn y_pred = some col →
      (countEq col y_true : ℚ) ≤ mrrLoop y_true y_pred := by
  intro yp
  induction yp with
  | nil =>
    intro yt col hcol
    simp only [firstColumn, Option.some.injEq] at hcol
    subst hcol
    cases yt <;> simp [countEq, mrrLoop]
  | cons row rest ih =>
    intro yt col hcol
    cases row with
    | nil => simp [firstColumn] at hcol
    | cons a tl =>
      simp only [firstColumn] at hcol
      cases hrest : firstColumn rest with
      | none => rw [hrest] at hcol; simp at hcol
      | some col' =>
        rw [hrest] at hcol
        simp only [Option.map_some', Option.some.injEq] at hcol
        subst hcol
        cases yt with
        | nil =>
          have h := mrrLoop_bounds rest []
          simpa [countEq, mrrLoop] using h.1
        | cons t ts =>
          have h := ih ts col' hrest
          have hstep : mrrLoop (t :: ts) ((a :: tl) :: rest)
              = mrrContrib (a :: tl, t) + mrrLoop ts rest := by
            simp [mrrLoop, mrrContrib]
          have hcontrib : ((if a = t then (1 : ℚ) else 0)) ≤ mrrContrib (a :: tl, t) := by
            by_cases hat : a = t
            · subst hat
              simp [mrrContrib, List.findIdx?]
            · simp only [hat, if_false]
              exact mrrContrib_nonneg _
          rw [hstep]
          push_cast [countEq]
          linarith [hcontrib, h]

/-- C9: for non-empty equal-length inputs whose prediction rows are
non-empty, the three metrics all succeed and satisfy
accuracy ≤ top30 ≤ 1 and accuracy ≤ mrr: a top-1 hit contributes 1 to all
three, while a lower-ranked hit contributes 0 to accuracy but
non-negatively to the other two. -/
theorem accuracy_le_top30_le_one_and_accuracy_le_mrr (c : Classifier)
    (y_true : List ℤ) (y_pred : List (List ℤ))
    (hlen : y_true.length = y_pred.length) (hne : y_pred ≠ [])
    (hrows : ∀ row ∈ y_pred, row ≠ []) :
    ∃ a t m : ℚ, c.accuracy_score y_true y_pred = .ok a ∧
      c.top30_score y_true y_pred = .ok t ∧
      c.mrr_score y_true y_pred = .ok m ∧
      a ≤ t ∧ t ≤ 1 ∧ a ≤ m := by
  obtain ⟨col, hcol, hcl⟩ := firstColumn_of_rows_nonempty y_pred hrows
  have hlen0 : y_pred.length ≠ 0 := length_ne_zero_of_ne_nil hne
  have hN : (0 : ℚ) < (y_pred.length : ℚ) := by
    exact_mod_cast Nat.pos_of_ne_zero hlen0
  have hcly : col.length = y_true.length := by rw [hcl, hlen]
  have ha : c.accuracy_score y_true y_pred
      = .ok ((countEq col y_true : ℚ) / (y_pred.length : ℚ)) := by
    unfold Classifier.accuracy_score
    rw [hcol]
    simp [hcly, hlen0]
  have ht : c.top30_score y_true y_pred
      = .ok (1 / (y_pred.length : ℚ)
          * top30Loop (min 30 y_pred.length) y_true y_pred) := by
    simp [Classifier.top30_score, hlen0]
  have hm : c.mrr_score y_true y_pred
      = .ok (1 / (y_pred.length : ℚ) * mrrLoop y_true y_pred) := by
    simp [Classifier.mrr_score, hlen0]
  have hrw : (countEq col y_true : ℚ) / (y_pred.length : ℚ)
      = 1 / (y_pred.length : ℚ) * (countEq col y_true : ℚ) := by ring
  have hw : 1 ≤ min 30 y_pred.length :=
    le_min (by norm_num) (Nat.pos_of_ne_zero hlen0)
  refine ⟨_, _, _, ha, ht, hm, ?_, ?_, ?_⟩
  · rw [hrw]
    exact mul_le_mul_of_nonneg_left
      (countEq_le_top30Loop (min 30 y_pred.length) hw y_pred y_true col hcol)
      (by positivity)
  · exact (div_mean_bounds hN (top30Loop_bounds _ _ _).1
      (top30Loop_bounds _ _ _).2).2
  · rw [hrw]
    exact mul_le_mul_of_nonneg_left
      (countEq_le_mrrLoop y_pred y_true col hcol) (by positivity)

/-- Witness for C9 at y_true = [5], y_pred = [[3,5,1]]. -/
theorem accuracy_le_top30_le_one_and_accuracy_le_mrr_witness :
    ∃ a t m : ℚ,
      Classifier.accuracy_score (unfitted none 30) [5] [[3, 5, 1]] = .ok a ∧
      Classifier.top30_score (unfitted none 30) [5] [[3, 5, 1]] = .ok t ∧
      Classifier.mrr_score (unfitted none 30) [5] [[3, 5, 1]] = .ok m ∧
      a ≤ t ∧ t ≤ 1 ∧ a ≤ m :=
  accuracy_le_top30_le_one_and_accuracy_le_mrr (unfitted none 30) [5]
    [[3, 5, 1]] (by decide) (by decide) (by decide)

/-!  Lemmas about `argsortRow` and `topRow`, the core of `predict`. -/

lemma argsortRow_perm (p : List ℚ) :
    (argsortRow p).Perm (List.range p.length) :=
  List.mergeSort_perm _ _

lemma argsortRow_length (p : List ℚ) : (argsortRow p).length = p.length := by
  rw [(argsortRow_perm p).length_eq, List.length_range]

lemma argsortRow_nodup (p : List ℚ) : (argsortRow p).Nodup :=
  ((argsortRow_perm p).nodup_iff).2 (List.nodup_range _)

lemma argsortRow_mem (p : List ℚ) {i : Nat} :
    i ∈ argsortRow p ↔ i < p.length := by
  rw [(argsortRow_perm p).mem_iff, List.mem_range]

lemma argsortRow_sorted (p : List ℚ) :
    List.Pairwise (fun i j => p.getD i 0 ≤ p.getD j 0) (argsortRow p) := by
  have htrans : ∀ a b c : Nat,
      decide (p.getD a 0 ≤ p.getD b 0) = true →
      decide (p.getD b 0 ≤ p.getD c 0) = true →
      decide (p.getD a 0 ≤ p.getD c 0) = true := by
    intro a b c hab hbc
    simp only [decide_eq_true_eq] at hab hbc ⊢
    exact le_trans hab hbc
  have htotal : ∀ a b : Nat,
      (decide (p.getD a 0 ≤ p.getD b 0) || decide (p.getD b 0 ≤ p.getD a 0)) = true := by
    intro a b
    simp only [Bool.or_eq_true, decide_eq_true_eq]
    exact le_total _ _
  have h := List.sorted_mergeSort htrans htotal (List.range p.length)
  unfold argsortRow
  exact h.imp (fun hab => by simpa using hab)

lemma topRow_eq (K : Nat) (hK : K ≠ 0) (p : List ℚ) :
    topRow K p = ((argsortRow p).drop ((argsortRow p).length - K)).reverse := by
  simp [topRow, pySliceLast, hK]

lemma topRow_length (K : Nat) (hK : K ≠ 0) (p : List ℚ) :
    (topRow K p).length = min K p.length := by
  rw [topRow_eq K hK p, List.length_reverse, List.length_drop, argsortRow_length]
  omega

lemma topRow_mem {K : Nat} (hK : K ≠ 0) {p : List ℚ} {i : Nat}
    (h : i ∈ topRow K p) : i < p.length := by
  rw [topRow_eq K hK p, List.mem_reverse] at h
  exact (argsortRow_mem p).1 (List.Sublist.mem h (List.drop_sublist _ _))

lemma topRow_nodup (K : Nat) (hK : K ≠ 0) (p : List ℚ) :
    (topRow K p).Nodup := by
  rw [topRow_eq K hK p, List.nodup_reverse]
  exact (List.drop_sublist _ _).nodup (argsortRow_nodup p)

lemma topRow_sorted_desc (K : Nat) (hK : K ≠ 0) (p : List ℚ) :
    List.Pairwise (fun i j => p.getD j 0 ≤ p.getD i 0) (topRow K p) := by
  rw [topRow_eq K hK p, List.pairwise_reverse]
  exact List.Pairwise.sublist (List.drop_sublist _ _) (argsortRow_sorted p)

lemma topRow_topK (K : Nat) (hK : K ≠ 0) (p : List ℚ) :
    ∀ i ∈ topRow K p, ∀ j, j < p.length → j ∉ topRow K p →
      p.getD j 0 ≤ p.getD i 0 := by
  intro i hi j hj hnj
  rw [topRow_eq K hK p, List.mem_reverse] at hi hnj
  have hjA : j ∈ argsortRow p := (argsortRow_mem p).2 hj
  have hsplit : (argsortRow p).take ((argsortRow p).length - K)
      ++ (argsortRow p).drop ((argsortRow p).length - K) = argsortRow p :=
    List.take_append_drop _ _
  have hjA' : j ∈ (argsortRow p).take ((argsortRow p).length - K)
      ++ (argsortRow p).drop ((argsortRow p).length - K) := by
    rw [hsplit]; exact hjA
  have hjtake : j ∈ (argsortRow p).take ((argsortRow p).length - K) := by
    rcases List.mem_append.1 hjA' with h | h
    · exact h
    · exact absurd h hnj
  have hpair := List.pairwise_append.1 (by rw [hsplit]; exact argsortRow_sorted p)
  exact hpair.2.2 j hjtake i hi

lemma topRow_all (K : Nat) (hK : K ≠ 0) (p : List ℚ) (h : p.length ≤ K) :
    ∀ j, j < p.length → j ∈ topRow K p := by
  intro j hj
  rw [topRow_eq K hK p, List.mem_reverse]
  have hzero : (argsortRow p).length - K = 0 := by
    rw [argsortRow_length]; omega
  rw [hzero, List.drop_zero]
  exact (argsortRow_mem p).2 hj

/-- C1: for a fitted classifier whose wrapped estimator exposes
`predict_proba` and whose `ranking_size` K is positive, on a valid input
whose probability matrix has one row per sample with one column per
fitted class, `predict` succeeds and returns, per sample, the K
highest-probability class indices in descending probability order mapped
through the fitted class list: each returned index list has length
min(K, C), consists of distinct valid class indices sorted by
non-increasing probability, every kept index has probability at least
that of every discarded index, and when C ≤ K every class index is
returned. -/
theorem predict_returns_topK_ranking (c : Classifier) (e : SkEstimator)
    (f : List (List ℚ) → List (List ℚ)) (cs : List ℤ) (X : List (List ℚ))
    (hclf : c.clf = some e) (hpp : e.predict_proba = some f)
    (hfit : c.X_.isSome ∧ c.y_.isSome) (hcs : c.classes_ = some cs)
    (hK : 1 ≤ c.ranking_size) (hX : check_array X = .ok X)
    (hC : ∀ p ∈ f X, p.length = cs.length) :
    c.predict X
        = .ok ((f X).map
            (fun p => (topRow c.ranking_size p).map (fun i => cs.getD i 0))) ∧
    ((f X).map
        (fun p => (topRow c.ranking_size p).map (fun i => cs.getD i 0))).length
      = (f X).length ∧
    ∀ p ∈ f X,
      (topRow c.ranking_size p).length = min c.ranking_size cs.length ∧
      (topRow c.ranking_size p).Nodup ∧
      (∀ i ∈ topRow c.ranking_size p, i < cs.length) ∧
      List.Pairwise (fun i j => p.getD j 0 ≤ p.getD i 0)
        (topRow c.ranking_size p) ∧
      (∀ i ∈ topRow c.ranking_size p, ∀ j, j < cs.length →
        j ∉ topRow c.ranking_size p → p.getD j 0 ≤ p.getD i 0) ∧
      (cs.length ≤ c.ranking_size → ∀ j, j < cs.length →
        j ∈ topRow c.ranking_size p) := by
  have hK0 : c.ranking_size ≠ 0 := by omega
  have hrange : ∀ p ∈ f X, ∀ i ∈ topRow c.ranking_size p, i < cs.length := by
    intro p hp i hi
    rw [← hC p hp]
    exact topRow_mem hK0 hi
  have hany : ((f X).map (fun p => topRow c.ranking_size p)).any
      (fun idxs => idxs.any (fun i => cs.length ≤ i)) = false := by
    rw [List.any_eq_false]
    intro idxs hidxs
    rw [List.mem_map] at hidxs
    obtain ⟨p, hp, rfl⟩ := hidxs
    rw [Bool.not_eq_true, List.any_eq_false]
    intro i hi
    simp only [decide_eq_true_eq, Nat.not_le]
    exact hrange p hp i hi
  refine ⟨?_, by rw [List.length_map], ?_⟩
  · simp only [Classifier.predict, hclf, hpp, hcs, hX]
    rw [if_pos hfit, hany]
    simp [List.map_map, Function.comp]
  · intro p hp
    refine ⟨?_, topRow_nodup _ hK0 p, hrange p hp, topRow_sorted_desc _ hK0 p,
      ?_, ?_⟩
    · rw [topRow_length _ hK0 p, hC p hp]
    · intro i hi j hj hnj
      exact topRow_topK _ hK0 p i hi j (by rw [hC p hp]; exact hj) hnj
    · intro hle j hj
      exact topRow_all _ hK0 p (by rw [hC p hp]; exact hle) j
        (by rw [hC p hp]; exact hj)

/-- Witness for C1 on the concrete fitted classifier (three classes,
ranking size 2). -/
theorem predict_returns_topK_ranking_witness :
    exampleFitted.predict [[1]]
        = .ok ((exampleProba [[1]]).map
            (fun p => (topRow exampleFitted.ranking_size p).map
              (fun i => ([10, 20, 30] : List ℤ).getD i 0))) ∧
    ((exampleProba [[1]]).map
        (fun p => (topRow exampleFitted.ranking_size p).map
          (fun i => ([10, 20, 30] : List ℤ).getD i 0))).length
      = (exampleProba [[1]]).length ∧
    ∀ p ∈ exampleProba [[1]],
      (topRow exampleFitted.ranking_size p).length
          = min exampleFitted.ranking_size ([10, 20, 30] : List ℤ).length ∧
      (topRow exampleFitted.ranking_size p).Nodup ∧
      (∀ i ∈ topRow exampleFitted.ranking_size p,
        i < ([10, 20, 30] : List ℤ).length) ∧
      List.Pairwise (fun i j => p.getD j 0 ≤ p.getD i 0)
        (topRow exampleFitted.ranking_size p) ∧
      (∀ i ∈ topRow exampleFitted.ranking_size p, ∀ j,
        j < ([10, 20, 30] : List ℤ).length →
        j ∉ topRow exampleFitted.ranking_size p → p.getD j 0 ≤ p.getD i 0) ∧
      (([10, 20, 30] : List ℤ).length ≤ exampleFitted.ranking_size →
        ∀ j, j < ([10, 20, 30] : List ℤ).length →
          j ∈ topRow exampleFitted.ranking_size p) :=
  predict_returns_topK_ranking exampleFitted exampleEstimator exampleProba
    [10, 20, 30] [[1]] rfl rfl ⟨rfl, rfl⟩ rfl (by decide) rfl
    (by simp [exampleProba])
